import Mathlib

/-!
# Sync session tracking of the network service (`dot/network/sync.go`)

A shallow embedding of the sync coordinator of the network `Service`:
`decodeSyncMessage`, `handleSyncMessage`, `attemptSyncWithRandomPeer`,
`setSyncingPeer`, `unsetSyncingPeer` and `beginSyncing`.

The service state is passed explicitly.  The collaborators the service only
calls (the host transport, the syncer core, the message decoders, the random
shuffle) are parameters, gathered in `Env`; their answers may depend on
everything that happened before, which is recorded in the service's trace.
The embedding is sequential: the read/write mutex `syncingMu` and the
goroutines started with `go` are not executed, a started stream reader is
only recorded in the trace.
-/

namespace Sync

/-- A libp2p `peer.ID` (a Go string type). -/
abbrev PeerID := String

/-- A Go `error` value, identified with its text. -/
abbrev Error := String

/-- A Go `[]byte`. -/
abbrev Bytes := List UInt8

/-- The protocol id the sync streams are opened under (`<protocol-id>/sync/2`);
the constant is declared outside `sync.go`. -/
def syncID : String := "/sync/2"

/-- The `Message` interface as `sync.go` sees it: a `*BlockRequestMessage`, a
`*BlockResponseMessage`, or a value of any other implementing type.  The two
message structs are declared outside `sync.go`; they are the type parameters
`Req` and `Resp`.  A nil interface value is `none : Option (Message Req Resp)`. -/
inductive Message (Req Resp : Type) where
  | blockRequest (req : Req)
  | blockResponse (resp : Resp)
  | other
  deriving DecidableEq

/-- What the service did to its collaborators, in the order it did it. -/
inductive Event (Req Resp : Type) where
  /-- The call `s.host.send(peer, protocol, msg)` and the error it returned. -/
  | send (peer : PeerID) (protocol : String) (msg : Message Req Resp) (err : Option Error)
  /-- The call `s.host.h.ConnManager().Protect(peer, tag)`. -/
  | protect (peer : PeerID) (tag : String)
  /-- The call `s.host.h.ConnManager().Unprotect(peer, tag)`. -/
  | unprotect (peer : PeerID) (tag : String)
  /-- The statement `go s.handleSyncStream(s.host.getStream(peer, protocol))`. -/
  | stream (peer : PeerID) (protocol : String)
  /-- The call `s.syncer.HandleBlockResponse(resp)` and the request it returned. -/
  | handleBlockResponse (resp : Resp) (next : Option Req)
  /-- The call `s.syncer.CreateBlockResponse(req)` and what it returned. -/
  | createBlockResponse (req : Req) (result : Except Error Resp)

/-- The collaborators of the service.  Every answer is a function of the trace
so far, so that a collaborator may answer the same call differently at
different times. -/
structure Env (Req Resp : Type) where
  /-- The method `s.host.send`: `none` is a nil error. -/
  send : List (Event Req Resp) → PeerID → String → Message Req Resp → Option Error
  /-- The method `s.host.peers()`. -/
  peers : List (Event Req Resp) → List PeerID
  /-- The call of `rand.Shuffle` over the peer slice. -/
  shuffle : List (Event Req Resp) → List PeerID → List PeerID
  /-- The shuffle only reorders the slice. -/
  shuffle_perm : ∀ t l, (shuffle t l).Perm l
  /-- The method `s.syncer.HandleBlockResponse`: `none` is a nil request. -/
  HandleBlockResponse : List (Event Req Resp) → Resp → Option Req
  /-- The method `s.syncer.CreateBlockResponse`. -/
  CreateBlockResponse : List (Event Req Resp) → Req → Except Error Resp
  /-- The allocation `new(BlockRequestMessage)` followed by `msg.Decode(in)`. -/
  decodeRequest : Bytes → Req × Option Error
  /-- The allocation `new(BlockResponseMessage)` followed by `msg.Decode(in)`. -/
  decodeResponse : Bytes → Resp × Option Error

/-- The part of `Service` that `sync.go` reads and writes.
`syncing` is the map `s.syncing` (a `map[peer.ID]struct{}`, so a set);
`connProtected` is the set of peers the connection manager holds protected
under the tag `""`, the only tag `sync.go` uses;
`trace` is the list of calls made to the collaborators. -/
structure Service (Req Resp : Type) where
  syncing : Finset PeerID
  connProtected : Finset PeerID
  trace : List (Event Req Resp)

variable {Req Resp : Type}

/-- The service before anything happened. -/
def Service.init : Service Req Resp :=
  { syncing := ∅, connProtected := ∅, trace := [] }

/-- The call `s.host.send(peer, syncID, msg)`, recorded in the trace. -/
def hostSend (env : Env Req Resp) (s : Service Req Resp) (peer : PeerID)
    (msg : Message Req Resp) : Service Req Resp × Option Error :=
  let err := env.send s.trace peer syncID msg
  ({ s with trace := s.trace ++ [Event.send peer syncID msg err] }, err)

/-- The statement `go s.handleSyncStream(s.host.getStream(peer, syncID))`: the reader
is not run here, only recorded. -/
def startSyncStream (s : Service Req Resp) (peer : PeerID) : Service Req Resp :=
  { s with trace := s.trace ++ [Event.stream peer syncID] }

/-- Method `decodeSyncMessage`: a payload from a peer we requested from is decoded as a
block response, any other as a block request. -/
def decodeSyncMessage (env : Env Req Resp) (s : Service Req Resp) (input : Bytes)
    (peer : PeerID) : Service Req Resp × (Message Req Resp × Option Error) :=
  if peer ∈ s.syncing then
    let r := env.decodeResponse input
    (s, (Message.blockResponse r.1, r.2))
  else
    let r := env.decodeRequest input
    (s, (Message.blockRequest r.1, r.2))

/-- Method `setSyncingPeer`: refuses a peer that is already in the map, otherwise
inserts it and protects its connection. -/
def setSyncingPeer (s : Service Req Resp) (peer : PeerID) :
    Service Req Resp × Option Error :=
  if peer ∈ s.syncing then
    (s, some "already syncing with peer")
  else
    ({ syncing := insert peer s.syncing
       connProtected := insert peer s.connProtected
       trace := s.trace ++ [Event.protect peer ""] }, none)

/-- Method `unsetSyncingPeer`: deletes the peer from the map and unprotects its
connection, whether or not the peer was in the map. -/
def unsetSyncingPeer (s : Service Req Resp) (peer : PeerID) : Service Req Resp :=
  { syncing := s.syncing.erase peer
    connProtected := s.connProtected.erase peer
    trace := s.trace ++ [Event.unprotect peer ""] }

/-- The `for _, peer := range peers` loop of `attemptSyncWithRandomPeer`. -/
def attemptLoop (env : Env Req Resp) (req : Req) :
    List PeerID → Service Req Resp → Service Req Resp
  | [], s => s
  | peer :: rest, s =>
    match hostSend env s peer (Message.blockRequest req) with
    | (s1, none) => (setSyncingPeer (startSyncStream s1 peer) peer).1
    | (s1, some _) => attemptLoop env req rest s1

/-- Method `attemptSyncWithRandomPeer`: the shuffled peers are tried in turn until
a send succeeds. -/
def attemptSyncWithRandomPeer (env : Env Req Resp) (s : Service Req Resp) (req : Req) :
    Service Req Resp :=
  attemptLoop env req (env.shuffle s.trace (env.peers s.trace)) s

/-- The call `s.syncer.HandleBlockResponse(resp)`, recorded in the trace. -/
def syncerHandleBlockResponse (env : Env Req Resp) (s : Service Req Resp) (resp : Resp) :
    Service Req Resp × Option Req :=
  let next := env.HandleBlockResponse s.trace resp
  ({ s with trace := s.trace ++ [Event.handleBlockResponse resp next] }, next)

/-- The call `s.syncer.CreateBlockResponse(req)`, recorded in the trace. -/
def syncerCreateBlockResponse (env : Env Req Resp) (s : Service Req Resp) (req : Req) :
    Service Req Resp × Except Error Resp :=
  let r := env.CreateBlockResponse s.trace req
  ({ s with trace := s.trace ++ [Event.createBlockResponse req r] }, r)

/-- Method `handleSyncMessage`; a nil `msg` is `none`.  The second type test of
the source cannot succeed after the first did, so the response branch ends with
the final `return nil`. -/
def handleSyncMessage (env : Env Req Resp) (s : Service Req Resp) (peer : PeerID)
    (msg : Option (Message Req Resp)) : Service Req Resp × Option Error :=
  match msg with
  | none => (s, none)
  | some (Message.blockResponse resp) =>
    if peer ∉ s.syncing then
      (s, none)
    else
      match syncerHandleBlockResponse env s resp with
      | (s1, some req) =>
        match hostSend env s1 peer (Message.blockRequest req) with
        | (s2, some _) => (attemptSyncWithRandomPeer env s2 req, none)
        | (s2, none) => (s2, none)
      | (s1, none) => (unsetSyncingPeer s1 peer, none)
  | some (Message.blockRequest req) =>
    match syncerCreateBlockResponse env s req with
    | (s1, Except.error _) => (s1, none)
    | (s1, Except.ok resp) => ((hostSend env s1 peer (Message.blockResponse resp)).1, none)
  | some Message.other => (s, none)

/-- Method `beginSyncing`; a nil `msg` is `none`. -/
def beginSyncing (env : Env Req Resp) (s : Service Req Resp) (peer : PeerID)
    (msg : Option Req) : Service Req Resp × Option Error :=
  match msg with
  | none => (s, none)
  | some m =>
    match setSyncingPeer s peer with
    | (s1, some err) => (s1, some err)
    | (s1, none) =>
      match hostSend env s1 peer (Message.blockRequest m) with
      | (s2, some err) => (s2, some err)
      | (s2, none) => (startSyncStream s2 peer, none)

/-- The send attempts recorded in a trace: the peer, the message and whether the
send succeeded. -/
def sends : List (Event Req Resp) → List (PeerID × Message Req Resp × Bool)
  | [] => []
  | Event.send p _ m err :: t => (p, m, err.isNone) :: sends t
  | _ :: t => sends t

/-- An environment for the examples: the send to a peer fails exactly when the
peer is listed in `down`, the peer set is `ps`, the shuffle leaves it as it is,
the syncer core asks for request `n + 1` after response `n` while `n < 2`. -/
def exampleEnv (down ps : List PeerID) : Env Nat Nat where
  send := fun _ p _ _ => if p ∈ down then some "send failed" else none
  peers := fun _ => ps
  shuffle := fun _ l => l
  shuffle_perm := fun _ l => List.Perm.refl l
  HandleBlockResponse := fun _ n => if n < 2 then some (n + 1) else none
  CreateBlockResponse := fun _ n => if n = 0 then Except.error "no blocks" else Except.ok n
  decodeRequest := fun b => (b.length, if b = [] then some "empty" else none)
  decodeResponse := fun b => (b.length + 100, if b = [] then some "empty" else none)


/-- The effect of one event on the set of connections held protected under the
tag of the sync service. -/
def protectStep (acc : Finset PeerID) : Event Req Resp → Finset PeerID
  | Event.protect p _ => insert p acc
  | Event.unprotect p _ => acc.erase p
  | _ => acc

/-- The set of protected connections after the `Protect` and `Unprotect` calls of
a trace, starting from `acc`. -/
def replayFrom (acc : Finset PeerID) : List (Event Req Resp) → Finset PeerID
  | [] => acc
  | e :: t => replayFrom (protectStep acc e) t

/-- No `Protect` of the trace is issued for a connection that is protected at
that moment (no double protect). -/
def protectsFresh (acc : Finset PeerID) : List (Event Req Resp) → Bool
  | [] => true
  | Event.protect p tag :: t =>
    decide (p ∉ acc) && protectsFresh (protectStep acc (Event.protect p tag : Event Req Resp)) t
  | e :: t => protectsFresh (protectStep acc e) t

/-- No `Unprotect` of the trace is issued for a connection that is not protected
at that moment (no double unprotect). -/
def unprotectsHeld (acc : Finset PeerID) : List (Event Req Resp) → Bool
  | [] => true
  | Event.unprotect p tag :: t =>
    decide (p ∈ acc) && unprotectsHeld (protectStep acc (Event.unprotect p tag : Event Req Resp)) t
  | e :: t => unprotectsHeld (protectStep acc e) t

/-- One call of the service from outside. -/
inductive Call (Req Resp : Type) where
  | beginSyncing (peer : PeerID) (msg : Option Req)
  | handleSyncMessage (peer : PeerID) (msg : Option (Message Req Resp))
  | attemptSyncWithRandomPeer (req : Req)
  | unsetSyncingPeer (peer : PeerID)

/-- The service after one call. -/
def applyCall (env : Env Req Resp) (s : Service Req Resp) : Call Req Resp → Service Req Resp
  | Call.beginSyncing peer msg => (beginSyncing env s peer msg).1
  | Call.handleSyncMessage peer msg => (handleSyncMessage env s peer msg).1
  | Call.attemptSyncWithRandomPeer req => attemptSyncWithRandomPeer env s req
  | Call.unsetSyncingPeer peer => unsetSyncingPeer s peer

/-- The service after a sequence of calls, one after the other. -/
def run (env : Env Req Resp) (s : Service Req Resp) : List (Call Req Resp) → Service Req Resp
  | [] => s
  | c :: cs => run env (applyCall env s c) cs

/-- Whether every direct `unsetSyncingPeer` of the sequence is called for a peer
that is in the session tracker at that moment. -/
def unsetsTracked (env : Env Req Resp) (s : Service Req Resp) : List (Call Req Resp) → Bool
  | [] => true
  | Call.unsetSyncingPeer p :: cs =>
    decide (p ∈ s.syncing) && unsetsTracked env (unsetSyncingPeer s p) cs
  | c :: cs => unsetsTracked env (applyCall env s c) cs

/-- A service that tracks exactly the peers of `ps`, all protected. -/
def exampleService (ps : List PeerID) : Service Nat Nat :=
  { syncing := ps.toFinset, connProtected := ps.toFinset, trace := [] }

/-- Whether the event is a `Protect` or an `Unprotect` call. -/
def touchesProtection : Event Req Resp → Bool
  | Event.protect _ _ => true
  | Event.unprotect _ _ => true
  | _ => false

/-- The protect/unprotect discipline of a service state: the protection set is
the session tracker, the `Protect` and `Unprotect` calls of the trace add up to
the session tracker, and no `Protect` was issued for a connection that was
protected.  With `strict`, also no `Unprotect` was issued for a connection that
was not protected. -/
def Disciplined (strict : Bool) (s : Service Req Resp) : Prop :=
  s.connProtected = s.syncing ∧
  replayFrom ∅ s.trace = s.syncing ∧
  protectsFresh ∅ s.trace = true ∧
  (strict = true → unprotectsHeld ∅ s.trace = true)

/-! ## Basic facts about the primitive steps -/

theorem hostSend_syncing (env : Env Req Resp) (s : Service Req Resp) (p : PeerID)
    (m : Message Req Resp) : (hostSend env s p m).1.syncing = s.syncing := rfl

theorem hostSend_connProtected (env : Env Req Resp) (s : Service Req Resp) (p : PeerID)
    (m : Message Req Resp) : (hostSend env s p m).1.connProtected = s.connProtected := rfl

theorem hostSend_trace (env : Env Req Resp) (s : Service Req Resp) (p : PeerID)
    (m : Message Req Resp) :
    (hostSend env s p m).1.trace
      = s.trace ++ [Event.send p syncID m (env.send s.trace p syncID m)] := rfl

theorem hostSend_err (env : Env Req Resp) (s : Service Req Resp) (p : PeerID)
    (m : Message Req Resp) : (hostSend env s p m).2 = env.send s.trace p syncID m := rfl

theorem sends_append (t u : List (Event Req Resp)) : sends (t ++ u) = sends t ++ sends u := by
  induction t with
  | nil => rfl
  | cons e t ih => cases e <;> simp [sends, ih]

theorem replayFrom_append (acc : Finset PeerID) (t u : List (Event Req Resp)) :
    replayFrom acc (t ++ u) = replayFrom (replayFrom acc t) u := by
  induction t generalizing acc with
  | nil => rfl
  | cons e t ih => simp [replayFrom, ih]

theorem protectsFresh_append (acc : Finset PeerID) (t u : List (Event Req Resp)) :
    protectsFresh acc (t ++ u) = (protectsFresh acc t && protectsFresh (replayFrom acc t) u) := by
  induction t generalizing acc with
  | nil => simp [protectsFresh, replayFrom]
  | cons e t ih => cases e <;> simp [protectsFresh, replayFrom, ih, Bool.and_assoc]

theorem unprotectsHeld_append (acc : Finset PeerID) (t u : List (Event Req Resp)) :
    unprotectsHeld acc (t ++ u)
      = (unprotectsHeld acc t && unprotectsHeld (replayFrom acc t) u) := by
  induction t generalizing acc with
  | nil => simp [unprotectsHeld, replayFrom]
  | cons e t ih => cases e <;> simp [unprotectsHeld, replayFrom, ih, Bool.and_assoc]

/-! ## Decoding by session state -/

/-- Claim C3. For every payload, peer and service state, `decodeSyncMessage` returns
exactly what decoding the payload as a block response returns when the peer is
in the session tracker, and what decoding it as a block request returns when it
is not; the message comes back together with the decoder's error value, and the
service state (tracker included) is the one before the call. -/
theorem decodeSyncMessage_by_session (env : Env Req Resp) (s : Service Req Resp)
    (payload : Bytes) (P : PeerID) :
    (P ∈ s.syncing →
      (decodeSyncMessage env s payload P).2
        = (Message.blockResponse (env.decodeResponse payload).1,
            (env.decodeResponse payload).2)) ∧
    (P ∉ s.syncing →
      (decodeSyncMessage env s payload P).2
        = (Message.blockRequest (env.decodeRequest payload).1,
            (env.decodeRequest payload).2)) ∧
    (decodeSyncMessage env s payload P).1 = s := by
  unfold decodeSyncMessage
  by_cases h : P ∈ s.syncing <;> simp [h]

/-- A tracked peer's failing payload is decoded as a response and the decoder's
error is handed back; the tracker is untouched. -/
theorem decodeSyncMessage_by_session_witness :
    "b" ∈ (exampleService ["b"]).syncing ∧
    (decodeSyncMessage (exampleEnv [] []) (exampleService ["b"]) [] "b").2
      = (Message.blockResponse 100, some "empty") ∧
    "a" ∉ (exampleService ["b"]).syncing ∧
    (decodeSyncMessage (exampleEnv [] []) (exampleService ["b"]) [7] "a").2
      = (Message.blockRequest 1, none) :=
  ⟨by decide,
   (decodeSyncMessage_by_session (exampleEnv [] []) (exampleService ["b"]) [] "b").1 (by decide),
   by decide,
   (decodeSyncMessage_by_session (exampleEnv [] []) (exampleService ["b"]) [7] "a").2.1
     (by decide)⟩

/-! ## Beginning a sync -/

theorem setSyncingPeer_present (s : Service Req Resp) (P : PeerID) (h : P ∈ s.syncing) :
    setSyncingPeer s P = (s, some "already syncing with peer") := by
  simp [setSyncingPeer, h]

theorem setSyncingPeer_absent (s : Service Req Resp) (P : PeerID) (h : P ∉ s.syncing) :
    setSyncingPeer s P
      = ({ syncing := insert P s.syncing
           connProtected := insert P s.connProtected
           trace := s.trace ++ [Event.protect P ""] }, none) := by
  simp [setSyncingPeer, h]

theorem beginSyncing_present (env : Env Req Resp) (s : Service Req Resp) (P : PeerID)
    (req : Req) (h : P ∈ s.syncing) :
    beginSyncing env s P (some req) = (s, some "already syncing with peer") := by
  simp [beginSyncing, setSyncingPeer_present s P h]

/-- Whatever a `beginSyncing` with a non-nil request returns, the peer is in the
tracker afterwards. -/
theorem beginSyncing_registers (env : Env Req Resp) (s : Service Req Resp) (P : PeerID)
    (req : Req) : P ∈ (beginSyncing env s P (some req)).1.syncing := by
  by_cases h : P ∈ s.syncing
  · rw [beginSyncing_present env s P req h]; exact h
  · simp only [beginSyncing, setSyncingPeer_absent s P h]
    split
    · rename_i s2 err heq
      have := congrArg (fun r => r.1.syncing) heq
      simp [hostSend_syncing] at this
      simp [← this]
    · rename_i s2 heq
      have := congrArg (fun r => r.1.syncing) heq
      simp [hostSend_syncing] at this
      simp [startSyncStream, ← this]

/-- Claim C2. For every service state, every peer `P` that already has a session
and every non-nil request, `beginSyncing` returns the error "already syncing with
peer" and leaves the whole service state as it was: the tracker and the
protection set are unchanged and nothing is sent.  Hence, from any state, of two
successive `beginSyncing` calls for the same peer with nothing in between, at
most one returns without an error. -/
theorem beginSyncing_already_syncing (env : Env Req Resp) (s : Service Req Resp)
    (P : PeerID) (req req2 : Req) :
    (P ∈ s.syncing →
      beginSyncing env s P (some req) = (s, some "already syncing with peer") ∧
      (beginSyncing env s P (some req)).1.syncing = s.syncing ∧
      (beginSyncing env s P (some req)).1.connProtected = s.connProtected ∧
      sends (beginSyncing env s P (some req)).1.trace = sends s.trace) ∧
    ¬ ((beginSyncing env s P (some req)).2 = none ∧
        (beginSyncing env (beginSyncing env s P (some req)).1 P (some req2)).2 = none) := by
  refine ⟨fun h => ?_, ?_⟩
  · rw [beginSyncing_present env s P req h]
    exact ⟨rfl, rfl, rfl, rfl⟩
  · rintro ⟨-, h2⟩
    rw [beginSyncing_present env _ P req2 (beginSyncing_registers env s P req)] at h2
    exact absurd h2 (by simp)

/-- A second `beginSyncing` for a tracked peer is refused and changes nothing. -/
theorem beginSyncing_already_syncing_witness :
    "b" ∈ (exampleService ["b"]).syncing ∧
    beginSyncing (exampleEnv [] []) (exampleService ["b"]) "b" (some 1)
      = (exampleService ["b"], some "already syncing with peer") :=
  ⟨by decide,
   ((beginSyncing_already_syncing (exampleEnv [] []) (exampleService ["b"]) "b" 1 2).1
      (by decide)).1⟩

/-- When the send fails, `beginSyncing` hands the send error back and returns
right away: the peer it has just registered stays in the tracker and its
connection stays protected. -/
theorem beginSyncing_send_failure (env : Env Req Resp) (s : Service Req Resp) (P : PeerID)
    (req : Req) (err : Error) (habsent : P ∉ s.syncing)
    (hfail : env.send (s.trace ++ [Event.protect P ""]) P syncID (Message.blockRequest req)
      = some err) :
    (beginSyncing env s P (some req)).2 = some err ∧
    (beginSyncing env s P (some req)).1.syncing = insert P s.syncing ∧
    (beginSyncing env s P (some req)).1.connProtected = insert P s.connProtected := by
  simp only [beginSyncing, setSyncingPeer_absent s P habsent]
  split
  · rename_i s2 e heq
    have h1 := congrArg (fun r => r.2) heq
    have h2 := congrArg (fun r => r.1.syncing) heq
    have h3 := congrArg (fun r => r.1.connProtected) heq
    simp [hostSend_syncing, hostSend_connProtected, hostSend_err] at h1 h2 h3
    rw [hfail] at h1
    exact ⟨h1.symm ▸ rfl, h2.symm, h3.symm⟩
  · rename_i s2 heq
    have h1 := congrArg (fun r => r.2) heq
    simp [hostSend_err] at h1
    rw [hfail] at h1
    exact absurd h1 (by simp)

/-- Claim C1, the code at the failing input. From the empty service, with a host
whose send to peer "a" fails, `beginSyncing "a"` returns the send error, and
afterwards "a" is still in the session tracker and its connection is still
protected: the registration is not rolled back. -/
theorem beginSyncing_send_failure_keeps_session :
    (beginSyncing (exampleEnv ["a"] []) Service.init "a" (some 1)).2 = some "send failed" ∧
    "a" ∉ (Service.init : Service Nat Nat).syncing ∧
    "a" ∈ (beginSyncing (exampleEnv ["a"] []) Service.init "a" (some 1)).1.syncing ∧
    "a" ∈ (beginSyncing (exampleEnv ["a"] []) Service.init "a" (some 1)).1.connProtected := by
  decide

/-! ## Handling a block response -/

theorem handleSyncMessage_untracked (env : Env Req Resp) (s : Service Req Resp) (P : PeerID)
    (resp : Resp) (h : P ∉ s.syncing) :
    handleSyncMessage env s P (some (Message.blockResponse resp)) = (s, none) := by
  simp [handleSyncMessage, h]

theorem handleSyncMessage_done_eq (env : Env Req Resp) (s : Service Req Resp) (P : PeerID)
    (resp : Resp) (h : P ∈ s.syncing) (hnone : env.HandleBlockResponse s.trace resp = none) :
    handleSyncMessage env s P (some (Message.blockResponse resp))
      = (unsetSyncingPeer
          { s with trace := s.trace ++ [Event.handleBlockResponse resp none] } P, none) := by
  simp [handleSyncMessage, h, syncerHandleBlockResponse, hnone]

theorem handleSyncMessage_followup_sent (env : Env Req Resp) (s : Service Req Resp)
    (P : PeerID) (resp : Resp) (next : Req) (h : P ∈ s.syncing)
    (hnext : env.HandleBlockResponse s.trace resp = some next)
    (hsend : env.send (s.trace ++ [Event.handleBlockResponse resp (some next)]) P syncID
      (Message.blockRequest next) = none) :
    handleSyncMessage env s P (some (Message.blockResponse resp))
      = ({ s with trace := s.trace ++ [Event.handleBlockResponse resp (some next)]
                    ++ [Event.send P syncID (Message.blockRequest next) none] }, none) := by
  simp [handleSyncMessage, h, syncerHandleBlockResponse, hnext, hostSend, hsend]

theorem handleSyncMessage_followup_failed (env : Env Req Resp) (s : Service Req Resp)
    (P : PeerID) (resp : Resp) (next : Req) (err : Error) (h : P ∈ s.syncing)
    (hnext : env.HandleBlockResponse s.trace resp = some next)
    (hsend : env.send (s.trace ++ [Event.handleBlockResponse resp (some next)]) P syncID
      (Message.blockRequest next) = some err) :
    handleSyncMessage env s P (some (Message.blockResponse resp))
      = (attemptSyncWithRandomPeer env
          { s with trace := s.trace ++ [Event.handleBlockResponse resp (some next)]
                    ++ [Event.send P syncID (Message.blockRequest next) (some err)] } next,
          none) := by
  simp [handleSyncMessage, h, syncerHandleBlockResponse, hnext, hostSend, hsend]

/-- Claim C5. For every service state in which a protected connection belongs to
a tracked peer, every peer `P` and every block response for which the syncer
core returns no next request: after `handleSyncMessage` the peer `P` is absent
from the session tracker and its connection is not protected, the tracker is the
old one without `P` (the session of every other peer is unchanged, and so is the
protection of every other connection), no send was made, and the handler
returned no error. -/
theorem handleSyncMessage_completion (env : Env Req Resp) (s : Service Req Resp)
    (P : PeerID) (resp : Resp)
    (hnone : env.HandleBlockResponse s.trace resp = none)
    (hprot : P ∈ s.connProtected → P ∈ s.syncing) :
    (handleSyncMessage env s P (some (Message.blockResponse resp))).2 = none ∧
    P ∉ (handleSyncMessage env s P (some (Message.blockResponse resp))).1.syncing ∧
    P ∉ (handleSyncMessage env s P (some (Message.blockResponse resp))).1.connProtected ∧
    (handleSyncMessage env s P (some (Message.blockResponse resp))).1.syncing
      = s.syncing.erase P ∧
    (∀ q, q ≠ P →
      (q ∈ (handleSyncMessage env s P (some (Message.blockResponse resp))).1.syncing
        ↔ q ∈ s.syncing) ∧
      (q ∈ (handleSyncMessage env s P (some (Message.blockResponse resp))).1.connProtected
        ↔ q ∈ s.connProtected)) ∧
    sends (handleSyncMessage env s P (some (Message.blockResponse resp))).1.trace
      = sends s.trace := by
  by_cases h : P ∈ s.syncing
  · rw [handleSyncMessage_done_eq env s P resp h hnone]
    refine ⟨rfl, ?_, ?_, rfl, ?_, ?_⟩
    · simp [unsetSyncingPeer]
    · simp [unsetSyncingPeer]
    · intro q hq
      simp [unsetSyncingPeer, hq]
    · simp [unsetSyncingPeer, sends_append, sends]
  · rw [handleSyncMessage_untracked env s P resp h]
    refine ⟨rfl, h, fun hp => h (hprot hp), ?_, ?_, rfl⟩
    · exact (Finset.erase_eq_of_not_mem h).symm
    · intro q _
      exact ⟨Iff.rfl, Iff.rfl⟩

/-- A final response from the tracked peer "b" ends its session and leaves the
session of "c" alone. -/
theorem handleSyncMessage_completion_witness :
    "b" ∉ (handleSyncMessage (exampleEnv [] []) (exampleService ["b", "c"]) "b"
      (some (Message.blockResponse 2))).1.syncing ∧
    "b" ∉ (handleSyncMessage (exampleEnv [] []) (exampleService ["b", "c"]) "b"
      (some (Message.blockResponse 2))).1.connProtected :=
  have h := handleSyncMessage_completion (exampleEnv [] []) (exampleService ["b", "c"]) "b" 2
    (by decide) (by decide)
  ⟨h.2.1, h.2.2.1⟩

/-! ## The session over a full exchange -/

theorem beginSyncing_sent (env : Env Req Resp) (s : Service Req Resp) (P : PeerID)
    (req : Req) (habsent : P ∉ s.syncing)
    (hsend : env.send (s.trace ++ [Event.protect P ""]) P syncID (Message.blockRequest req)
      = none) :
    beginSyncing env s P (some req)
      = ({ syncing := insert P s.syncing
           connProtected := insert P s.connProtected
           trace := s.trace ++ [Event.protect P ""]
             ++ [Event.send P syncID (Message.blockRequest req) none]
             ++ [Event.stream P syncID] }, none) := by
  simp [beginSyncing, setSyncingPeer_absent s P habsent, hostSend, hsend, startSyncStream]

/-- Claim C6. With every send succeeding, from any service state in which peer
`B` has no session: `beginSyncing` returns no error, sends the request to `B`
and makes the session of `B` present; handling a response of `B` for which the
syncer core returns a follow-up request sends exactly that follow-up to `B` and
leaves the tracker as it is, so the session of `B` is still present; handling a
further response of `B` for which the syncer core returns no request makes the
session of `B` absent, and the tracker is then the one of the start. -/
theorem session_lifecycle (env : Env Req Resp) (s : Service Req Resp) (B : PeerID)
    (req next : Req) (resp1 resp2 : Resp)
    (habsent : B ∉ s.syncing)
    (hsend : ∀ t p m, env.send t p syncID m = none)
    (hnext : env.HandleBlockResponse (beginSyncing env s B (some req)).1.trace resp1
      = some next)
    (hdone : env.HandleBlockResponse
      (handleSyncMessage env (beginSyncing env s B (some req)).1 B
        (some (Message.blockResponse resp1))).1.trace resp2 = none) :
    let s1 := (beginSyncing env s B (some req)).1
    let s2 := (handleSyncMessage env s1 B (some (Message.blockResponse resp1))).1
    let s3 := (handleSyncMessage env s2 B (some (Message.blockResponse resp2))).1
    (beginSyncing env s B (some req)).2 = none ∧
    sends s1.trace = sends s.trace ++ [(B, Message.blockRequest req, true)] ∧
    B ∈ s1.syncing ∧
    (handleSyncMessage env s1 B (some (Message.blockResponse resp1))).2 = none ∧
    sends s2.trace = sends s1.trace ++ [(B, Message.blockRequest next, true)] ∧
    s2.syncing = s1.syncing ∧ B ∈ s2.syncing ∧
    (handleSyncMessage env s2 B (some (Message.blockResponse resp2))).2 = none ∧
    B ∉ s3.syncing ∧ s3.syncing = s.syncing ∧ sends s3.trace = sends s2.trace := by
  intro s1 s2 s3
  have e1 := beginSyncing_sent env s B req habsent (hsend _ _ _)
  have hB1 : B ∈ s1.syncing := by simp [s1, e1]
  have e2 := handleSyncMessage_followup_sent env s1 B resp1 next hB1 hnext (hsend _ _ _)
  have hB2 : B ∈ s2.syncing := by simp only [s2, e2]; exact hB1
  have e3 := handleSyncMessage_done_eq env s2 B resp2 hB2 hdone
  have hs1 : s1.syncing = insert B s.syncing := by simp only [s1, e1]
  have hs2 : s2.syncing = s1.syncing := by simp only [s2, e2]
  have hs3 : s3.syncing = s2.syncing.erase B := by
    show (handleSyncMessage env s2 B (some (Message.blockResponse resp2))).1.syncing = _
    rw [e3]
    rfl
  have h3 : s3.syncing = s.syncing := by
    rw [hs3, hs2, hs1]
    exact Finset.erase_insert habsent
  refine ⟨by rw [e1], ?_, hB1, by rw [e2], ?_, hs2, hB2, by rw [e3], ?_, h3, ?_⟩
  · simp [s1, e1, sends_append, sends]
  · show sends (handleSyncMessage env s1 B (some (Message.blockResponse resp1))).1.trace = _
    rw [e2]
    simp [sends_append, sends]
  · rw [h3]; exact habsent
  · show sends (handleSyncMessage env s2 B (some (Message.blockResponse resp2))).1.trace = _
    rw [e3]
    simp [unsetSyncingPeer, sends_append, sends]

/-- The exchange with peer "b": request 0, response 1 answered by the follow-up
request 2, response 2 that completes the exchange. -/
theorem session_lifecycle_witness :
    "b" ∈ (beginSyncing (exampleEnv [] []) (exampleService ["c"]) "b" (some 0)).1.syncing ∧
    (handleSyncMessage (exampleEnv [] [])
      (handleSyncMessage (exampleEnv [] [])
        (beginSyncing (exampleEnv [] []) (exampleService ["c"]) "b" (some 0)).1 "b"
        (some (Message.blockResponse 1))).1 "b"
      (some (Message.blockResponse 2))).1.syncing = (exampleService ["c"]).syncing :=
  have h := session_lifecycle (exampleEnv [] []) (exampleService ["c"]) "b" 0 2 1 2
    (by decide) (fun _ _ _ => rfl) rfl rfl
  ⟨h.2.2.1, h.2.2.2.2.2.2.2.2.2.1⟩

/-! ## Retrying with the other peers -/

theorem attemptLoop_all_fail (env : Env Req Resp) (req : Req) :
    ∀ (l : List PeerID) (s : Service Req Resp),
      (∀ t, ∀ p ∈ l, env.send t p syncID (Message.blockRequest req) ≠ none) →
      (attemptLoop env req l s).syncing = s.syncing ∧
      (attemptLoop env req l s).connProtected = s.connProtected ∧
      ∃ tried, (attemptLoop env req l s).trace = s.trace ++ tried ∧
        tried.length = l.length ∧
        sends tried = l.map (fun p => (p, Message.blockRequest req, false)) := by
  intro l
  induction l with
  | nil =>
    intro s _
    exact ⟨rfl, rfl, [], by simp [attemptLoop], rfl, rfl⟩
  | cons peer rest ih =>
    intro s hfail
    cases hs : env.send s.trace peer syncID (Message.blockRequest req) with
    | none => exact absurd hs (hfail s.trace peer (List.mem_cons_self _ _))
    | some err =>
      have hrest : ∀ t, ∀ p ∈ rest, env.send t p syncID (Message.blockRequest req) ≠ none :=
        fun t p hp => hfail t p (List.mem_cons_of_mem _ hp)
      obtain ⟨h1, h2, tried, h3, h4, h5⟩ := ih
        { s with trace := s.trace
            ++ [Event.send peer syncID (Message.blockRequest req) (some err)] } hrest
      simp only [attemptLoop, hostSend, hs]
      refine ⟨h1, h2,
        Event.send peer syncID (Message.blockRequest req) (some err) :: tried, ?_, ?_, ?_⟩
      · rw [h3]; simp
      · simp [h4]
      · simp [sends, h5]

/-- Claim C7. For every request, peer set, shuffle and service state, if the send
of the request to every peer of the set fails, then `attemptSyncWithRandomPeer`
(a total function that returns no error value) leaves the session tracker and
the protection set as they were, so no peer of the set gets a session from the
call; and what it adds to the trace is one failed send of the request per peer
of the set, in the shuffled order, and nothing else. -/
theorem attemptSyncWithRandomPeer_exhausted (env : Env Req Resp) (s : Service Req Resp)
    (req : Req)
    (hfail : ∀ t, ∀ p ∈ env.peers s.trace,
      env.send t p syncID (Message.blockRequest req) ≠ none) :
    (attemptSyncWithRandomPeer env s req).syncing = s.syncing ∧
    (attemptSyncWithRandomPeer env s req).connProtected = s.connProtected ∧
    (∃ tried, (attemptSyncWithRandomPeer env s req).trace = s.trace ++ tried ∧
      tried.length = (env.peers s.trace).length ∧
      sends tried = (env.shuffle s.trace (env.peers s.trace)).map
        (fun p => (p, Message.blockRequest req, false)) ∧
      ((sends tried).map Prod.fst).Perm (env.peers s.trace)) ∧
    (∀ p ∈ env.peers s.trace, p ∉ s.syncing →
      p ∉ (attemptSyncWithRandomPeer env s req).syncing) := by
  have hperm := env.shuffle_perm s.trace (env.peers s.trace)
  have hfail2 : ∀ t, ∀ p ∈ env.shuffle s.trace (env.peers s.trace),
      env.send t p syncID (Message.blockRequest req) ≠ none :=
    fun t p hp => hfail t p (hperm.mem_iff.mp hp)
  obtain ⟨h1, h2, tried, h3, h4, h5⟩ :=
    attemptLoop_all_fail env req (env.shuffle s.trace (env.peers s.trace)) s hfail2
  refine ⟨h1, h2, ⟨tried, h3, ?_, h5, ?_⟩, ?_⟩
  · rw [h4]; exact hperm.length_eq
  · rw [h5, List.map_map]
    have hid : (Prod.fst ∘ fun p : PeerID =>
        (p, (Message.blockRequest req : Message Req Resp), false)) = id := rfl
    rw [hid, List.map_id]
    exact hperm
  · intro p _ hp
    show p ∉ (attemptLoop env req (env.shuffle s.trace (env.peers s.trace)) s).syncing
    rw [h1]; exact hp

/-- With the peers "a" and "b" both unreachable, the retry tries both and
registers nothing. -/
theorem attemptSyncWithRandomPeer_exhausted_witness :
    (attemptSyncWithRandomPeer (exampleEnv ["a", "b"] ["a", "b"]) (exampleService ["c"])
      5).syncing = (exampleService ["c"]).syncing ∧
    (attemptSyncWithRandomPeer (exampleEnv ["a", "b"] ["a", "b"]) (exampleService ["c"])
      5).connProtected = (exampleService ["c"]).connProtected :=
  have h := attemptSyncWithRandomPeer_exhausted (exampleEnv ["a", "b"] ["a", "b"])
    (exampleService ["c"]) 5 (by intro t p hp; fin_cases hp <;> simp [exampleEnv])
  ⟨h.1, h.2.1⟩

/-- Claim C4, the code at the failing input. Peer "q" already has a session (an
outstanding request) and is the only candidate of the retry; the send to it
succeeds.  `attemptSyncWithRandomPeer` sends the request to "q" all the same:
the send comes first and the refusal of `setSyncingPeer` is dropped. -/
theorem attemptSyncWithRandomPeer_sends_to_tracked_peer :
    "q" ∈ (exampleService ["q"]).syncing ∧
    sends (attemptSyncWithRandomPeer (exampleEnv [] ["q"]) (exampleService ["q"]) 7).trace
      = [("q", Message.blockRequest 7, true)] ∧
    (setSyncingPeer (exampleService ["q"]) "q").2 = some "already syncing with peer" := by
  decide

/-- When the follow-up cannot be sent to the peer and every send of the retry
fails as well, `handleSyncMessage` leaves the tracker and the protection set as
they were: the session of the peer is still there. -/
theorem handleSyncMessage_send_failure (env : Env Req Resp) (s : Service Req Resp)
    (P : PeerID) (resp : Resp) (next : Req) (err : Error) (h : P ∈ s.syncing)
    (hnext : env.HandleBlockResponse s.trace resp = some next)
    (hsend : env.send (s.trace ++ [Event.handleBlockResponse resp (some next)]) P syncID
      (Message.blockRequest next) = some err)
    (hfail : ∀ t p, env.send t p syncID (Message.blockRequest next) ≠ none) :
    (handleSyncMessage env s P (some (Message.blockResponse resp))).1.syncing = s.syncing ∧
    (handleSyncMessage env s P (some (Message.blockResponse resp))).1.connProtected
      = s.connProtected := by
  rw [handleSyncMessage_followup_failed env s P resp next err h hnext hsend]
  have := attemptLoop_all_fail env next
    (env.shuffle (s.trace ++ [Event.handleBlockResponse resp (some next)]
        ++ [Event.send P syncID (Message.blockRequest next) (some err)])
      (env.peers (s.trace ++ [Event.handleBlockResponse resp (some next)]
        ++ [Event.send P syncID (Message.blockRequest next) (some err)])))
    { s with trace := s.trace ++ [Event.handleBlockResponse resp (some next)]
              ++ [Event.send P syncID (Message.blockRequest next) (some err)] }
    (fun t p _ => hfail t p)
  exact ⟨this.1, this.2.1⟩

/-- Claim C9, the code at the failing input. Peer "p" is tracked, the syncer core
answers its response with a follow-up request, the send of the follow-up to "p"
fails and so does every send of the retry over the peers "p" and "q".  After
`handleSyncMessage` returns, "p" is still in the session tracker and its
connection is still protected. -/
theorem handleSyncMessage_send_failure_keeps_session :
    (exampleEnv ["p", "q"] ["p", "q"]).HandleBlockResponse [] 0 = some 1 ∧
    sends (handleSyncMessage (exampleEnv ["p", "q"] ["p", "q"]) (exampleService ["p"]) "p"
      (some (Message.blockResponse 0))).1.trace
      = [("p", Message.blockRequest 1, false), ("p", Message.blockRequest 1, false),
         ("q", Message.blockRequest 1, false)] ∧
    "p" ∈ (handleSyncMessage (exampleEnv ["p", "q"] ["p", "q"]) (exampleService ["p"]) "p"
      (some (Message.blockResponse 0))).1.syncing ∧
    "p" ∈ (handleSyncMessage (exampleEnv ["p", "q"] ["p", "q"]) (exampleService ["p"]) "p"
      (some (Message.blockResponse 0))).1.connProtected := by
  decide

/-! ## Protect and unprotect follow the tracker -/

theorem replayFrom_neutral (acc : Finset PeerID) (tr : List (Event Req Resp))
    (h : ∀ e ∈ tr, touchesProtection e = false) : replayFrom acc tr = acc := by
  induction tr with
  | nil => rfl
  | cons e t ih =>
    have he := h e (List.mem_cons_self _ _)
    have ht := ih (fun x hx => h x (List.mem_cons_of_mem _ hx))
    cases e <;> simp_all [replayFrom, protectStep, touchesProtection]

theorem protectsFresh_neutral (acc : Finset PeerID) (tr : List (Event Req Resp))
    (h : ∀ e ∈ tr, touchesProtection e = false) : protectsFresh acc tr = true := by
  induction tr with
  | nil => rfl
  | cons e t ih =>
    have he := h e (List.mem_cons_self _ _)
    have ht := ih (fun x hx => h x (List.mem_cons_of_mem _ hx))
    cases e <;> simp_all [protectsFresh, protectStep, touchesProtection]

theorem unprotectsHeld_neutral (acc : Finset PeerID) (tr : List (Event Req Resp))
    (h : ∀ e ∈ tr, touchesProtection e = false) : unprotectsHeld acc tr = true := by
  induction tr with
  | nil => rfl
  | cons e t ih =>
    have he := h e (List.mem_cons_self _ _)
    have ht := ih (fun x hx => h x (List.mem_cons_of_mem _ hx))
    cases e <;> simp_all [unprotectsHeld, protectStep, touchesProtection]

theorem disciplined_extend {b : Bool} {s s2 : Service Req Resp} (tr : List (Event Req Resp))
    (hs : Disciplined b s) (hneutral : ∀ e ∈ tr, touchesProtection e = false)
    (h1 : s2.syncing = s.syncing) (h2 : s2.connProtected = s.connProtected)
    (h3 : s2.trace = s.trace ++ tr) : Disciplined b s2 := by
  obtain ⟨a1, a2, a3, a4⟩ := hs
  refine ⟨by rw [h1, h2, a1], ?_, ?_, ?_⟩
  · rw [h3, replayFrom_append, replayFrom_neutral _ tr hneutral, h1, a2]
  · rw [h3, protectsFresh_append, a3, protectsFresh_neutral _ tr hneutral]; rfl
  · intro hb
    rw [h3, unprotectsHeld_append, a4 hb, unprotectsHeld_neutral _ tr hneutral]; rfl

theorem disciplined_hostSend {b : Bool} {s : Service Req Resp} (env : Env Req Resp)
    (p : PeerID) (m : Message Req Resp) (hs : Disciplined b s) :
    Disciplined b (hostSend env s p m).1 :=
  disciplined_extend [Event.send p syncID m (env.send s.trace p syncID m)] hs
    (by simp [touchesProtection]) rfl rfl rfl

theorem disciplined_startSyncStream {b : Bool} {s : Service Req Resp} (p : PeerID)
    (hs : Disciplined b s) : Disciplined b (startSyncStream s p) :=
  disciplined_extend [Event.stream p syncID] hs (by simp [touchesProtection]) rfl rfl rfl

theorem disciplined_syncerHandleBlockResponse {b : Bool} {s : Service Req Resp}
    (env : Env Req Resp) (resp : Resp) (hs : Disciplined b s) :
    Disciplined b (syncerHandleBlockResponse env s resp).1 :=
  disciplined_extend [Event.handleBlockResponse resp (env.HandleBlockResponse s.trace resp)] hs
    (by simp [touchesProtection]) rfl rfl rfl

theorem disciplined_syncerCreateBlockResponse {b : Bool} {s : Service Req Resp}
    (env : Env Req Resp) (req : Req) (hs : Disciplined b s) :
    Disciplined b (syncerCreateBlockResponse env s req).1 :=
  disciplined_extend [Event.createBlockResponse req (env.CreateBlockResponse s.trace req)] hs
    (by simp [touchesProtection]) rfl rfl rfl

theorem disciplined_setSyncingPeer {b : Bool} {s : Service Req Resp} (p : PeerID)
    (hs : Disciplined b s) : Disciplined b (setSyncingPeer s p).1 := by
  by_cases h : p ∈ s.syncing
  · rw [setSyncingPeer_present s p h]; exact hs
  · rw [setSyncingPeer_absent s p h]
    obtain ⟨a1, a2, a3, a4⟩ := hs
    refine ⟨by simp [a1], ?_, ?_, ?_⟩
    · simp [replayFrom_append, replayFrom, protectStep, a2]
    · simp [protectsFresh_append, protectsFresh, a2, a3, h]
    · intro hb
      simp [unprotectsHeld_append, unprotectsHeld, a4 hb]

theorem disciplined_unsetSyncingPeer {b : Bool} {s : Service Req Resp} (p : PeerID)
    (hs : Disciplined b s) (hp : b = true → p ∈ s.syncing) :
    Disciplined b (unsetSyncingPeer s p) := by
  obtain ⟨a1, a2, a3, a4⟩ := hs
  refine ⟨by simp [Sync.unsetSyncingPeer, a1], ?_, ?_, ?_⟩
  · simp [Sync.unsetSyncingPeer, replayFrom_append, replayFrom, protectStep, a2]
  · simp [Sync.unsetSyncingPeer, protectsFresh_append, protectsFresh, a3]
  · intro hb
    simp [Sync.unsetSyncingPeer, unprotectsHeld_append, unprotectsHeld, a4 hb, a2, hp hb]

theorem disciplined_attemptLoop {b : Bool} (env : Env Req Resp) (req : Req) :
    ∀ (l : List PeerID) (s : Service Req Resp), Disciplined b s →
      Disciplined b (attemptLoop env req l s) := by
  intro l
  induction l with
  | nil => intro s hs; exact hs
  | cons peer rest ih =>
    intro s hs
    have h1 := disciplined_hostSend env peer (Message.blockRequest req) hs
    simp only [Sync.attemptLoop]
    cases hh : Sync.hostSend env s peer (Message.blockRequest req) with
    | mk s1 e1 =>
      rw [hh] at h1
      cases e1 with
      | none => exact disciplined_setSyncingPeer peer (disciplined_startSyncStream peer h1)
      | some err => exact ih s1 h1

theorem disciplined_attemptSyncWithRandomPeer {b : Bool} {s : Service Req Resp}
    (env : Env Req Resp) (req : Req) (hs : Disciplined b s) :
    Disciplined b (attemptSyncWithRandomPeer env s req) :=
  disciplined_attemptLoop env req _ s hs

theorem disciplined_beginSyncing {b : Bool} {s : Service Req Resp} (env : Env Req Resp)
    (P : PeerID) (msg : Option Req) (hs : Disciplined b s) :
    Disciplined b (beginSyncing env s P msg).1 := by
  cases msg with
  | none => exact hs
  | some m =>
    have h1 := disciplined_setSyncingPeer P hs
    simp only [Sync.beginSyncing]
    cases hsp : Sync.setSyncingPeer s P with
    | mk s1 e1 =>
      rw [hsp] at h1
      cases e1 with
      | some err => exact h1
      | none =>
        have h2 := disciplined_hostSend env P (Message.blockRequest m) h1
        simp only []
        cases hh : Sync.hostSend env s1 P (Message.blockRequest m) with
        | mk s2 e2 =>
          rw [hh] at h2
          cases e2 with
          | some err => exact h2
          | none => exact disciplined_startSyncStream P h2

theorem disciplined_handleSyncMessage {b : Bool} {s : Service Req Resp} (env : Env Req Resp)
    (P : PeerID) (msg : Option (Message Req Resp)) (hs : Disciplined b s) :
    Disciplined b (handleSyncMessage env s P msg).1 := by
  cases msg with
  | none => exact hs
  | some m =>
    cases m with
    | other => exact hs
    | blockRequest req =>
      have h1 := disciplined_syncerCreateBlockResponse env req hs
      simp only [Sync.handleSyncMessage]
      cases hc : Sync.syncerCreateBlockResponse env s req with
      | mk s1 r =>
        rw [hc] at h1
        cases r with
        | error e => exact h1
        | ok resp => exact disciplined_hostSend env P (Message.blockResponse resp) h1
    | blockResponse resp =>
      by_cases h : P ∈ s.syncing
      · have h1 := disciplined_syncerHandleBlockResponse env resp hs
        have hP : P ∈ (Sync.syncerHandleBlockResponse env s resp).1.syncing := h
        simp only [Sync.handleSyncMessage, h, not_true_eq_false, if_false]
        cases hc : Sync.syncerHandleBlockResponse env s resp with
        | mk s1 r =>
          rw [hc] at h1 hP
          cases r with
          | none => exact disciplined_unsetSyncingPeer P h1 (fun _ => hP)
          | some next =>
            have h2 := disciplined_hostSend env P (Message.blockRequest next) h1
            simp only []
            cases hh : Sync.hostSend env s1 P (Message.blockRequest next) with
            | mk s2 e2 =>
              rw [hh] at h2
              cases e2 with
              | none => exact h2
              | some err => exact disciplined_attemptSyncWithRandomPeer env next h2
      · rw [handleSyncMessage_untracked env s P resp h]; exact hs

theorem disciplined_init (b : Bool) : Disciplined b (Service.init : Service Req Resp) :=
  ⟨rfl, rfl, rfl, fun _ => rfl⟩

theorem disciplined_run {b : Bool} (env : Env Req Resp) :
    ∀ (calls : List (Call Req Resp)) (s : Service Req Resp), Disciplined b s →
      (b = true → unsetsTracked env s calls = true) → Disciplined b (run env s calls) := by
  intro calls
  induction calls with
  | nil => intro s hs _; exact hs
  | cons c cs ih =>
    intro s hs hb
    cases c with
    | beginSyncing peer msg =>
      exact ih _ (disciplined_beginSyncing env peer msg hs)
        (fun h => by simpa [unsetsTracked] using hb h)
    | handleSyncMessage peer msg =>
      exact ih _ (disciplined_handleSyncMessage env peer msg hs)
        (fun h => by simpa [unsetsTracked] using hb h)
    | attemptSyncWithRandomPeer req =>
      exact ih _ (disciplined_attemptSyncWithRandomPeer env req hs)
        (fun h => by simpa [unsetsTracked] using hb h)
    | unsetSyncingPeer peer =>
      have key : b = true → peer ∈ s.syncing ∧
          unsetsTracked env (Sync.unsetSyncingPeer s peer) cs = true := by
        intro h
        simpa [unsetsTracked] using hb h
      exact ih _ (disciplined_unsetSyncingPeer peer hs (fun h => (key h).1)) (fun h => (key h).2)

/-- Claim C8 as stated fails. From the empty service, a direct `unsetSyncingPeer`
for peer "a", which has no session, issues an `Unprotect` for "a": an unprotect
of a connection that is not protected. -/
theorem unsetSyncingPeer_unprotects_absent_peer :
    "a" ∉ (Service.init : Service Nat Nat).syncing ∧
    "a" ∉ (Service.init : Service Nat Nat).connProtected ∧
    (run (exampleEnv [] []) Service.init [Call.unsetSyncingPeer "a"]).trace
      = [Event.unprotect "a" ""] ∧
    unprotectsHeld ∅ (run (exampleEnv [] []) Service.init [Call.unsetSyncingPeer "a"]).trace
      = false :=
  ⟨by decide, by decide, rfl, by decide⟩

/-- Claim C8, amended. Starting from the empty service, after any sequence of
`beginSyncing`, `handleSyncMessage`, `attemptSyncWithRandomPeer` and
`unsetSyncingPeer` calls, whatever the host and the syncer core answer: a
connection is protected if and only if its peer is in the session tracker; the
`Protect` and `Unprotect` calls issued so far add up to the session tracker; no
`Protect` was issued for a peer already present; and no `Unprotect` was issued
for a peer already absent provided every direct `unsetSyncingPeer` of the
sequence was called for a peer that had a session.  In every state, an insertion
by `setSyncingPeer` issues exactly one `Protect`, a refused `setSyncingPeer`
issues nothing, and `unsetSyncingPeer` issues exactly one `Unprotect`, also for
a peer that is absent. -/
theorem run_protect_symmetry (env : Env Req Resp) (calls : List (Call Req Resp)) :
    (∀ p, p ∈ (run env Service.init calls).connProtected
      ↔ p ∈ (run env Service.init calls).syncing) ∧
    replayFrom ∅ (run env Service.init calls).trace = (run env Service.init calls).syncing ∧
    protectsFresh ∅ (run env Service.init calls).trace = true ∧
    (unsetsTracked env Service.init calls = true →
      unprotectsHeld ∅ (run env Service.init calls).trace = true) ∧
    (∀ (s : Service Req Resp) (p : PeerID),
      (p ∉ s.syncing → (setSyncingPeer s p).1.trace = s.trace ++ [Event.protect p ""]) ∧
      (p ∈ s.syncing → (setSyncingPeer s p).1.trace = s.trace) ∧
      (unsetSyncingPeer s p).trace = s.trace ++ [Event.unprotect p ""]) := by
  have hloose := disciplined_run env calls Service.init (disciplined_init false)
    (fun h => absurd h (by simp))
  refine ⟨fun p => by rw [hloose.1], hloose.2.1, hloose.2.2.1, ?_, ?_⟩
  · intro htracked
    exact (disciplined_run env calls Service.init (disciplined_init true)
      (fun _ => htracked)).2.2.2 rfl
  · intro s p
    refine ⟨fun h => ?_, fun h => ?_, rfl⟩
    · rw [setSyncingPeer_absent s p h]
    · rw [setSyncingPeer_present s p h]

/-- A session of peer "a" that is begun, continued by a follow-up and ended
directly: every unprotect of the run hits a protected connection. -/
theorem run_protect_symmetry_witness :
    unsetsTracked (exampleEnv [] ["b"]) Service.init
      [Call.beginSyncing "a" (some 0), Call.handleSyncMessage "a" (some (Message.blockResponse 1)),
       Call.unsetSyncingPeer "a"] = true ∧
    unprotectsHeld ∅ (run (exampleEnv [] ["b"]) Service.init
      [Call.beginSyncing "a" (some 0), Call.handleSyncMessage "a" (some (Message.blockResponse 1)),
       Call.unsetSyncingPeer "a"]).trace = true :=
  ⟨by decide,
   (run_protect_symmetry (exampleEnv [] ["b"])
      [Call.beginSyncing "a" (some 0), Call.handleSyncMessage "a" (some (Message.blockResponse 1)),
       Call.unsetSyncingPeer "a"]).2.2.2.1 (by decide)⟩

end Sync
